import Mathlib

/-!
Shallow embedding of the workdir-confined file and command toolkit
(src/file.py `class File`, src/cmd.py `class CommandRunner`).

The filesystem is modelled as an association list from absolute paths
(lists of name segments, POSIX-style, rooted at `[]`) to nodes (regular
file with string content, directory, or symlink with an absolute target).
`pathlib.Path.resolve()` is modelled by a fuel-bounded resolver that walks
segments left to right, following symlinks and applying `..`/`.` the way
POSIX path resolution does; symlink cycles exhaust the fuel and count as a
failed resolution (Python raises there, and `File._validate_path` treats a
raised `RuntimeError` as an invalid path).

`Path.read_text()` / `Path.write_text()` are modelled with POSIX text-mode
semantics: writing stores the string verbatim (`os.linesep = "\n"`), reading
applies universal-newline translation (`"\r\n"` and `"\r"` become `"\n"`).
-/

set_option maxHeartbeats 1000000

deriving instance DecidableEq for Except

namespace Toollm

/-- A path argument as handed to the `File` methods: absolute flag plus the
parsed name segments (what `pathlib.PurePath.parts` yields, so `".."` may
occur as a segment). -/
structure PyPath where
  isAbs : Bool
  segs : List String
  deriving DecidableEq, Repr

/-- An absolute filesystem path, as a list of segments from the root. -/
abbrev AbsPath := List String

/-- A filesystem node: a regular text file with raw on-disk content, a
directory, or a symbolic link to an absolute target path. -/
inductive Node where
  | file (content : String)
  | dir
  | symlink (target : AbsPath)
  deriving DecidableEq, Repr

/-- The filesystem: an association list from absolute paths to nodes
(first binding wins). -/
abbrev FS := List (AbsPath × Node)

/-- Look up the node stored at an absolute path. -/
def FS.lookup (fs : FS) (p : AbsPath) : Option Node :=
  (fs.find? (fun e => decide (e.1 = p))).map (fun e => e.2)

/-- Store file content at a path: overwrite in place when the key is
present, otherwise add a new binding. -/
def FS.setFile (fs : FS) (p : AbsPath) (c : String) : FS :=
  if fs.any (fun e => decide (e.1 = p)) then
    fs.map (fun e => if e.1 = p then (p, Node.file c) else e)
  else
    (p, Node.file c) :: fs

/-- Remove the binding at a path (`Path.unlink`). -/
def FS.remove (fs : FS) (p : AbsPath) : FS :=
  fs.filter (fun e => decide (e.1 ≠ p))

/-- The symlink target stored at a path, if the node there is a symlink. -/
def FS.linkAt (fs : FS) (p : AbsPath) : Option AbsPath :=
  match fs.lookup p with
  | some (Node.symlink t) => some t
  | _ => none

/-- `leadsList pre l` holds when `pre` is an initial run of `l` — the list
form of `Path.relative_to` succeeding. -/
def leadsList {α : Type} [DecidableEq α] : List α → List α → Bool
  | [], _ => true
  | _ :: _, [] => false
  | a :: as, b :: bs => if a = b then leadsList as bs else false

/-- POSIX path resolution as performed by `Path.resolve(strict=False)`:
walk the segments left to right over an already-resolved base; `"."` is
skipped, `".."` drops the last resolved segment, a segment naming a symlink
is replaced by the resolution of its target (fuel bounds symlink hops), and
any other segment — existing or not — is appended. -/
def resolveSegs (fs : FS) : Nat → AbsPath → List String → Option AbsPath
  | _, base, [] => some base
  | 0, _, _ :: _ => none
  | fuel + 1, base, s :: rest =>
    if s = "." then resolveSegs fs fuel base rest
    else if s = ".." then resolveSegs fs fuel base.dropLast rest
    else
      match fs.lookup (base ++ [s]) with
      | some (Node.symlink t) =>
        match resolveSegs fs fuel [] t with
        | none => none
        | some base' => resolveSegs fs fuel base' rest
      | _ => resolveSegs fs fuel (base ++ [s]) rest

/-- Extra fuel granted beyond the path's own segment count; only symlink
chains longer than this exhaust it (Python's resolver instead fails on
symlink loops, and `File._validate_path` maps that to an invalid path). -/
def resolveFuel : Nat := 64

/-- `self.workdir / file_path`: an absolute argument discards the workdir,
a relative one is appended to it. -/
def joinPath (wd : AbsPath) (p : PyPath) : List String :=
  if p.isAbs then p.segs else wd ++ p.segs

/-- `File._validate_path` (src/file.py lines 38-49): resolve the joined
path fully, then require the *unresolved* workdir to be an initial run of
the result (`full_path.relative_to(self.workdir)`); any failure yields
`none`, which the callers turn into an invalid-path error. -/
def validatePath (fs : FS) (wd : AbsPath) (p : PyPath) : Option AbsPath :=
  match resolveSegs fs ((joinPath wd p).length + resolveFuel) [] (joinPath wd p) with
  | none => none
  | some r => if leadsList wd r then some r else none

/-! ### Python string semantics used by the source -/

/-- `str.lower()` restricted to what the source needs: ASCII case mapping
(every blocklist pattern and allow-listed extension is plain ASCII). -/
def lowerChar (c : Char) : Char :=
  if 'A' ≤ c ∧ c ≤ 'Z' then Char.ofNat (c.toNat + 32) else c

/-- `str.lower()` applied character-wise. -/
def pyLower (s : String) : String :=
  (s.data.map lowerChar).asString

/-- The character class stripped by Python `str.strip()`: Unicode
whitespace. -/
def pySpaceChar (c : Char) : Bool :=
  c = ' ' ∨ c = '\t' ∨ c = '\n' ∨ c = '\x0b' ∨ c = '\x0c' ∨ c = '\r' ∨
  c = '\x1c' ∨ c = '\x1d' ∨ c = '\x1e' ∨ c = '\x1f' ∨ c = '\x85' ∨
  c = '\xa0' ∨ c = '\u1680' ∨ ('\u2000' ≤ c ∧ c ≤ '\u200a') ∨
  c = '\u2028' ∨ c = '\u2029' ∨ c = '\u202f' ∨ c = '\u205f' ∨ c = '\u3000'

/-- Python `str.strip()`: drop whitespace from both ends. -/
def pyStrip (s : String) : String :=
  (((s.data.dropWhile pySpaceChar).reverse.dropWhile pySpaceChar).reverse).asString

/-- Python `sub in s`: literal substring containment. -/
def listContainsSub {α : Type} [DecidableEq α] (s p : List α) : Bool :=
  (List.range (s.length + 1)).any (fun i => leadsList p (s.drop i))

/-- Python `sub in s` on strings. -/
def containsSub (s p : String) : Bool :=
  listContainsSub s.data p.data

/-- Universal-newline translation applied by `open(..., newline=None)` in
read mode (hence by `Path.read_text`): `"\r\n"` and `"\r"` become `"\n"`. -/
def univNewlines : List Char → List Char
  | [] => []
  | '\r' :: '\n' :: rest => '\n' :: univNewlines rest
  | '\r' :: rest => '\n' :: univNewlines rest
  | c :: rest => c :: univNewlines rest

/-- `Path.read_text(encoding='utf-8')`: the stored bytes decoded with
universal-newline translation. -/
def pyReadText (raw : String) : String :=
  (univNewlines raw.data).asString

/-- The line-break characters recognised by `str.splitlines`. -/
def lineBreakChar (c : Char) : Bool :=
  c = '\n' ∨ c = '\r' ∨ c = '\x0b' ∨ c = '\x0c' ∨ c = '\x1c' ∨ c = '\x1d' ∨
  c = '\x1e' ∨ c = '\x85' ∨ c = '\u2028' ∨ c = '\u2029'

/-- `str.splitlines(keepends=True)`: split at line breaks, keeping each
terminator with its line and treating `"\r\n"` as a single break. -/
def splitLinesKeep : List Char → List (List Char)
  | [] => []
  | '\r' :: '\n' :: rest => ['\r', '\n'] :: splitLinesKeep rest
  | c :: rest =>
    if lineBreakChar c then
      [c] :: splitLinesKeep rest
    else
      match splitLinesKeep rest with
      | [] => [[c]]
      | l :: ls => (c :: l) :: ls

/-- Clamp one slice index the way Python list slicing does: negative
indices count from the end, then everything is clamped into `[0, len]`. -/
def pySliceClamp (len : Nat) (i : Int) : Nat :=
  if i < 0 then (if i + len < 0 then 0 else (i + len).toNat)
  else min i.toNat len

/-- Python `l[a:b]` for integer indices. -/
def pySlice {α : Type} (l : List α) (a b : Int) : List α :=
  (l.take (pySliceClamp l.length b)).drop (pySliceClamp l.length a)

/-- `PurePath.suffix` of a file name: the part from the last dot on,
provided that dot is neither the first nor the last character. -/
def nameSuffix (name : String) : String :=
  let cs := name.data
  match (cs.reverse.findIdx? (fun c => decide (c = '.'))) with
  | none => ""
  | some j =>
    let i := cs.length - 1 - j
    if 0 < i ∧ i < cs.length - 1 then (cs.drop i).asString else ""

/-- `Path.suffix` of an absolute path: the suffix of its last segment. -/
def pySuffix (p : AbsPath) : String :=
  match p.getLast? with
  | none => ""
  | some name => nameSuffix name

/-! ### Python `str.count` / `str.replace` (non-overlapping, left to right) -/

/-- Count non-overlapping occurrences of the non-empty pattern `oh :: ot`,
scanning left to right; after a hit, `skip` records how many pattern
characters are still to be stepped over before scanning resumes. -/
def countAux (oh : Char) (ot : List Char) : List Char → Nat → Nat
  | [], _ => 0
  | _ :: rest, skip + 1 => countAux oh ot rest skip
  | c :: rest, 0 =>
    if c = oh ∧ leadsList ot rest = true then
      countAux oh ot rest ot.length + 1
    else
      countAux oh ot rest 0

/-- Python `s.count(old)`; an empty pattern counts `len(s) + 1`. -/
def pyCount (s old : String) : Nat :=
  match old.data with
  | [] => s.data.length + 1
  | oh :: ot => countAux oh ot s.data 0

/-- Replace up to `lim` (all, when `none`) non-overlapping occurrences of
`oh :: ot` by `new`, left to right; after a hit, `new` is emitted and the
remaining `skip` pattern characters are dropped without being emitted. -/
def replaceAux (oh : Char) (ot new : List Char) :
    List Char → Nat → Option Nat → List Char
  | s, 0, some 0 => s
  | [], _, _ => []
  | _ :: rest, skip + 1, lim => replaceAux oh ot new rest skip lim
  | c :: rest, 0, lim =>
    if c = oh ∧ leadsList ot rest = true then
      new ++ replaceAux oh ot new rest ot.length (lim.map (fun k => k - 1))
    else
      c :: replaceAux oh ot new rest 0 lim

/-- Replacement for the empty pattern: Python inserts `new` before each of
the first `lim` characters and, when the limit is not yet exhausted, once
more at the end. -/
def replaceEmptyAux (new : List Char) : List Char → Nat → List Char
  | s, 0 => s
  | [], _ + 1 => new
  | c :: rest, k + 1 => new ++ c :: replaceEmptyAux new rest k

/-- Python `s.replace(old, new)` (`lim = none`) and
`s.replace(old, new, n)` (`lim = some n`). -/
def pyReplace (s old new : String) (lim : Option Nat) : String :=
  match old.data with
  | [] =>
    (replaceEmptyAux new.data s.data
      (match lim with | none => s.data.length + 1 | some k => k)).asString
  | oh :: ot => (replaceAux oh ot new.data s.data 0 lim).asString

/-! ### `class File` (src/file.py) -/

/-- The fixed text-extension allow-list `File.SUPPORTED_TEXT_EXTENSIONS`. -/
def SUPPORTED_TEXT_EXTENSIONS : List String :=
  [".txt", ".py", ".js", ".ts", ".jsx", ".tsx", ".md", ".json",
   ".yaml", ".yml", ".html", ".css", ".scss", ".sh", ".bat",
   ".csv", ".log", ".xml", ".sql", ".env", ".ini", ".cfg",
   ".java", ".cpp", ".c", ".h", ".go", ".rs", ".php", ".rb"]

/-- `File._is_text_file`: the lower-cased suffix must be allow-listed. -/
def isTextFile (p : AbsPath) : Bool :=
  SUPPORTED_TEXT_EXTENSIONS.contains (pyLower (pySuffix p))

/-- The distinct structured error outcomes of the `File` methods; each
constructor corresponds to one literal `'error': f'...'` return site in
src/file.py and carries exactly the data interpolated into that message. -/
inductive FileError where
  /-- `'Invalid path: {file_path} ...'` -/
  | invalidPath (p : PyPath)
  /-- `'File not found: {file_path}'` / `'Directory not found: {directory}'` -/
  | notFound (p : PyPath)
  /-- `'Unsupported file type: {full_path.suffix} ...'` -/
  | unsupportedType (suffix : String)
  /-- `'Line range out of bounds: {start}-{end} (total: {total})'` -/
  | outOfBounds (startLine endLine : Int) (total : Nat)
  /-- `'File already exists: {file_path}'` -/
  | alreadyExists (p : PyPath)
  /-- `'Replacement {idx}: missing original_text or new_text'` -/
  | missingText (idx : Nat)
  /-- `'Replacement {idx}: original_text and new_text are identical'` -/
  | identicalText (idx : Nat)
  /-- `'Replacement {idx}: original_text not found in file'` -/
  | textNotFound (idx : Nat)
  /-- `'Replacement {idx}: original_text appears {count} times (not unique). ...'` -/
  | notUnique (idx : Nat) (count : Nat)
  /-- `'Path is a directory, not a file: {file_path}'` -/
  | isADirectory (p : PyPath)
  /-- `'Path is not a directory: {directory}'` -/
  | notADirectory (p : PyPath)
  /-- a caught exception re-packaged as `'Read/Create/Replace error: ...'` -/
  | ioError (msg : String)
  deriving DecidableEq, Repr

/-- Success payload of `File.read_file`: the `content`, `file_path` and
`total_lines` fields of the returned dict. -/
structure ReadOk where
  content : String
  filePath : AbsPath
  totalLines : Nat
  deriving DecidableEq, Repr

/-- `File.read_file` (src/file.py lines 55-118). -/
def readFile (fs : FS) (wd : AbsPath) (p : PyPath)
    (startLine endLine : Option Int) : Except FileError ReadOk :=
  match validatePath fs wd p with
  | none => Except.error (FileError.invalidPath p)
  | some full =>
    match fs.lookup full with
    | none => Except.error (FileError.notFound p)
    | some node =>
      if isTextFile full = false then
        Except.error (FileError.unsupportedType (pySuffix full))
      else
        match node with
        | Node.file raw =>
          let content := pyReadText raw
          let lines := splitLinesKeep content.data
          let total := lines.length
          match startLine, endLine with
          | some s, some e =>
            if s < 1 ∨ e > (total : Int) then
              Except.error (FileError.outOfBounds s e total)
            else
              Except.ok ⟨((pySlice lines (s - 1) e).flatten).asString, full, total⟩
          | _, _ => Except.ok ⟨content, full, total⟩
        | _ =>
          -- `read_text` on a directory raises; the `except` clause maps it
          -- to a `'Read error: ...'` dict (unreachable for a symlink: a
          -- resolved path has no symlink component).
          Except.error (FileError.ioError "Read error")

/-- `Path.mkdir(parents=True, exist_ok=True)` over the ancestor chain:
missing ancestors become directories, an ancestor that is not a directory
makes the call raise (with nothing created, since the failing `mkdir`
syscall happens before any creation on that chain). -/
def mkdirParents (fs : FS) (base : AbsPath) : List String → Option FS
  | [] => some fs
  | s :: rest =>
    match fs.lookup (base ++ [s]) with
    | some Node.dir => mkdirParents fs (base ++ [s]) rest
    | none => mkdirParents ((base ++ [s], Node.dir) :: fs) (base ++ [s]) rest
    | some _ => none

/-- `File.create_file` (src/file.py lines 120-167); returns the result and
the filesystem after the call. -/
def createFile (fs : FS) (wd : AbsPath) (p : PyPath) (content : String) :
    Except FileError AbsPath × FS :=
  match validatePath fs wd p with
  | none => (Except.error (FileError.invalidPath p), fs)
  | some full =>
    if (fs.lookup full).isSome then
      (Except.error (FileError.alreadyExists p), fs)
    else if isTextFile full = false then
      (Except.error (FileError.unsupportedType (pySuffix full)), fs)
    else
      match mkdirParents fs [] full.dropLast with
      | none => (Except.error (FileError.ioError "Create error"), fs)
      | some fs' => (Except.ok full, fs'.setFile full content)

/-- One replacement dict of `File.search_replace`: `dict.get` makes the
two text fields optional, `replace_all` defaults to `False`. -/
structure ReplacementSpec where
  original_text : Option String
  new_text : Option String
  replace_all : Bool
  deriving DecidableEq, Repr

/-- The per-spec loop of `File.search_replace` (src/file.py lines
209-245): thread the in-memory content and the running `replacements_made`
through the ordered batch, stopping at the first failing spec. -/
def applyReps : String → List ReplacementSpec → Nat → Nat →
    Except FileError (String × Nat)
  | content, [], _, made => Except.ok (content, made)
  | content, sp :: rest, idx, made =>
    match sp.original_text, sp.new_text with
    | some original, some new =>
      if original = new then
        Except.error (FileError.identicalText idx)
      else
        let count := pyCount content original
        if count = 0 then
          Except.error (FileError.textNotFound idx)
        else if sp.replace_all = false ∧ count > 1 then
          Except.error (FileError.notUnique idx count)
        else if sp.replace_all then
          applyReps (pyReplace content original new none) rest (idx + 1) (made + count)
        else
          applyReps (pyReplace content original new (some 1)) rest (idx + 1) (made + 1)
    | _, _ => Except.error (FileError.missingText idx)

/-- `File.search_replace` (src/file.py lines 169-257): validate, require
existence, read, run the batch in memory, and only on full success write
the final content back once.  Note there is *no* extension check here. -/
def searchReplace (fs : FS) (wd : AbsPath) (p : PyPath)
    (specs : List ReplacementSpec) : Except FileError Nat × FS :=
  match validatePath fs wd p with
  | none => (Except.error (FileError.invalidPath p), fs)
  | some full =>
    match fs.lookup full with
    | none => (Except.error (FileError.notFound p), fs)
    | some (Node.file raw) =>
      match applyReps (pyReadText raw) specs 0 0 with
      | Except.error e => (Except.error e, fs)
      | Except.ok (newContent, made) => (Except.ok made, fs.setFile full newContent)
    | some _ =>
      -- `read_text` raises on a directory; caught as `'Replace error: ...'`.
      (Except.error (FileError.ioError "Replace error"), fs)

/-- `File.delete_file` (src/file.py lines 259-298).  Note there is *no*
extension check here either. -/
def deleteFile (fs : FS) (wd : AbsPath) (p : PyPath) :
    Except FileError Unit × FS :=
  match validatePath fs wd p with
  | none => (Except.error (FileError.invalidPath p), fs)
  | some full =>
    match fs.lookup full with
    | none => (Except.error (FileError.notFound p), fs)
    | some Node.dir => (Except.error (FileError.isADirectory p), fs)
    | some _ => (Except.ok (), fs.remove full)

/-- `item.is_file()` — follows symlinks to a regular file. -/
def nodeIsFile (fs : FS) (k : AbsPath) : Bool :=
  match fs.lookup k with
  | some (Node.file _) => true
  | some (Node.symlink t) =>
    match resolveSegs fs (t.length + resolveFuel) [] t with
    | some r => match fs.lookup r with
      | some (Node.file _) => true
      | _ => false
    | none => false
  | _ => false

/-- `item.is_dir()` — follows symlinks to a directory. -/
def nodeIsDir (fs : FS) (k : AbsPath) : Bool :=
  match fs.lookup k with
  | some Node.dir => true
  | some (Node.symlink t) =>
    match resolveSegs fs (t.length + resolveFuel) [] t with
    | some r => match fs.lookup r with
      | some Node.dir => true
      | _ => false
    | none => false
  | _ => false

/-- `str(item.relative_to(self.workdir))`. -/
def renderRel (wd : AbsPath) (k : AbsPath) : String :=
  String.intercalate "/" (k.drop wd.length)

/-- Success payload of `File.list_files`: the sorted `files` and
`directories` lists. -/
structure ListOk where
  files : List String
  directories : List String
  deriving DecidableEq, Repr

/-- `File.list_files` (src/file.py lines 300-363). -/
def listFiles (fs : FS) (wd : AbsPath) (p : PyPath) (recursive : Bool) :
    Except FileError ListOk :=
  match validatePath fs wd p with
  | none => Except.error (FileError.invalidPath p)
  | some full =>
    match fs.lookup full with
    | none => Except.error (FileError.notFound p)
    | some _ =>
      if nodeIsDir fs full = false then
        Except.error (FileError.notADirectory p)
      else
        let keys := fs.map (fun e => e.1)
        let items :=
          if recursive then
            keys.filter (fun k => leadsList full k && decide (k ≠ full))
          else
            keys.filter (fun k => leadsList full k && decide (k.length = full.length + 1))
        let fileNames := (items.filter (nodeIsFile fs)).map (renderRel wd)
        let dirNames := (items.filter (nodeIsDir fs)).map (renderRel wd)
        Except.ok ⟨fileNames.mergeSort (fun a b => decide (a ≤ b)),
                   dirNames.mergeSort (fun a b => decide (a ≤ b))⟩

/-! ### `class CommandRunner` (src/cmd.py) -/

/-- `CommandRunner.blocked_patterns` (src/cmd.py lines 42-52). -/
def blocked_patterns : List String :=
  ["rm -rf /", "rm -rf /*", "format c:", "shutdown", "reboot",
   "halt", "poweroff", "mkfs", "fdisk"]

/-- `CommandRunner._is_blocked` (src/cmd.py lines 54-57):
`command.lower().strip()` must contain no blocklisted substring. -/
def isBlocked (command : String) : Bool :=
  blocked_patterns.any (fun pat => containsSub (pyStrip (pyLower command)) pat)

/-- The result dict of `CommandRunner.execute`. -/
structure CmdResult where
  success : Bool
  returncode : Int
  stdout : String
  stderr : String
  workdir : AbsPath
  error : Option String
  deriving DecidableEq, Repr

/-- What `CommandRunner.execute` does before any subprocess interaction:
either it returns a completed result without spawning, or control reaches
`subprocess.run` with the given command, working directory and timeout. -/
inductive ExecStep where
  | done (r : CmdResult)
  | spawn (command : String) (cwd : AbsPath) (timeoutSecs : Nat)
  deriving DecidableEq, Repr

/-- `CommandRunner.execute` (src/cmd.py lines 59-106) up to the point a
subprocess would be spawned. -/
def execute (wd : AbsPath) (timeout : Nat) (command : String) : ExecStep :=
  if isBlocked command then
    ExecStep.done
      { success := false
        returncode := -1
        stdout := ""
        stderr := ""
        workdir := wd
        error := some ("Blocked dangerous command: " ++ command) }
  else
    ExecStep.spawn command wd timeout

/-! ### Concrete scenarios used by claim witnesses and counterexamples -/

/-- Example workdir `/w`. -/
def wdEx : AbsPath := ["w"]

/-- Workdir containing one file `f.txt` with content `"aXbXc"`. -/
def fsAXbXc : FS := [(["w"], Node.dir), (["w", "f.txt"], Node.file "aXbXc")]

/-- Workdir containing `b.txt`, target of a contained `a/../b.txt` walk. -/
def fsDotDot : FS := [(["w"], Node.dir), (["w", "b.txt"], Node.file "hi")]

/-- Workdir containing a three-line file `n.txt`. -/
def fsThreeLines : FS := [(["w"], Node.dir), (["w", "n.txt"], Node.file "A\nB\nC\n")]

/-- Workdir containing a symlink `link` that escapes to `/outside`. -/
def fsEscape : FS :=
  [(["w"], Node.dir), (["w", "link"], Node.symlink ["outside"]),
   (["outside"], Node.dir), (["outside", "s.txt"], Node.file "secret")]

/-- A filesystem whose workdir path `/tmp/link/wd` itself goes through the
symlink `/tmp/link -> /var/real`. -/
def fsLinkedWd : FS :=
  [(["tmp", "link"], Node.symlink ["var", "real"]),
   (["var", "real"], Node.dir),
   (["var", "real", "wd"], Node.dir),
   (["var", "real", "wd", "a.txt"], Node.file "hi")]

/-- Workdir containing a non-allow-listed `f.bin` file. -/
def fsBin : FS := [(["w"], Node.dir), (["w", "f.bin"], Node.file "abc")]

/-- Workdir containing nothing but the root directory. -/
def fsEmptyWd : FS := [(["w"], Node.dir)]

/-! ### Lemmas about `leadsList` -/

theorem leadsList_iff {α : Type} [DecidableEq α] (p l : List α) :
    leadsList p l = true ↔ ∃ t, l = p ++ t := by
  induction p generalizing l with
  | nil => simp [leadsList]
  | cons a as ih =>
    cases l with
    | nil => simp [leadsList]
    | cons b bs =>
      by_cases hab : a = b
      · subst hab
        simp [leadsList, ih]
      · simp [leadsList, hab, Ne.symm hab]

theorem leadsList_refl {α : Type} [DecidableEq α] (l : List α) :
    leadsList l l = true :=
  (leadsList_iff l l).2 ⟨[], by simp⟩

theorem leadsList_trans {α : Type} [DecidableEq α] {a b c : List α}
    (h1 : leadsList a b = true) (h2 : leadsList b c = true) :
    leadsList a c = true := by
  obtain ⟨t1, ht1⟩ := (leadsList_iff a b).1 h1
  obtain ⟨t2, ht2⟩ := (leadsList_iff b c).1 h2
  exact (leadsList_iff a c).2 ⟨t1 ++ t2, by simp [ht2, ht1]⟩

theorem leadsList_snoc {α : Type} [DecidableEq α] {q base : List α} {s : α}
    (h : leadsList q (base ++ [s]) = true) :
    leadsList q base = true ∨ q = base ++ [s] := by
  obtain ⟨t, ht⟩ := (leadsList_iff q (base ++ [s])).1 h
  cases t using List.reverseRecOn with
  | nil => right; simpa using ht.symm
  | append_singleton t' x _ =>
    left
    refine (leadsList_iff q base).2 ⟨t', ?_⟩
    have h2 : (q ++ t') ++ [x] = base ++ [s] := by
      rw [List.append_assoc]; exact ht.symm
    have h3 := congrArg List.dropLast h2
    simpa using h3.symm

theorem leadsList_dropLast {α : Type} [DecidableEq α] {q base : List α}
    (h : leadsList q base.dropLast = true) : leadsList q base = true := by
  cases base using List.reverseRecOn with
  | nil => simpa using h
  | append_singleton b' x _ =>
    rw [List.dropLast_concat] at h
    obtain ⟨t, ht⟩ := (leadsList_iff q b').1 h
    exact (leadsList_iff q (b' ++ [x])).2 ⟨t ++ [x], by rw [ht]; simp⟩

/-! ### A fully resolved path has no symlink along it -/

/-- No non-empty initial run of `r` names a symlink in `fs`: the property
guaranteed by `Path.resolve` for the path it returns. -/
def cleanOf (fs : FS) (r : AbsPath) : Prop :=
  ∀ q t, q ≠ [] → leadsList q r = true → fs.lookup q ≠ some (Node.symlink t)

theorem cleanOf_nil (fs : FS) : cleanOf fs [] := by
  intro q t hq hlead
  obtain ⟨u, hu⟩ := (leadsList_iff q []).1 hlead
  cases q with
  | nil => exact absurd rfl hq
  | cons a as => simp at hu

theorem cleanOf_dropLast {fs : FS} {base : AbsPath} (h : cleanOf fs base) :
    cleanOf fs base.dropLast := fun q t hq hlead =>
  h q t hq (leadsList_dropLast hlead)

theorem cleanOf_snoc {fs : FS} {base : AbsPath} {s : String}
    (h : cleanOf fs base)
    (hs : ∀ t, fs.lookup (base ++ [s]) ≠ some (Node.symlink t)) :
    cleanOf fs (base ++ [s]) := by
  intro q t hq hlead
  rcases leadsList_snoc hlead with h1 | h1
  · exact h q t hq h1
  · subst h1; exact hs t

/-- The resolver only ever returns clean paths (started from a clean base). -/
theorem resolve_clean (fs : FS) :
    ∀ fuel base segs r, cleanOf fs base →
      resolveSegs fs fuel base segs = some r → cleanOf fs r := by
  intro fuel
  induction fuel with
  | zero =>
    intro base segs r hb hres
    cases segs with
    | nil => cases hres; exact hb
    | cons s rest => cases hres
  | succ fuel ih =>
    intro base segs r hb hres
    cases segs with
    | nil => cases hres; exact hb
    | cons s rest =>
      simp only [resolveSegs] at hres
      by_cases hdot : s = "."
      · rw [if_pos hdot] at hres
        exact ih base rest r hb hres
      · rw [if_neg hdot] at hres
        by_cases hdd : s = ".."
        · rw [if_pos hdd] at hres
          exact ih base.dropLast rest r (cleanOf_dropLast hb) hres
        · rw [if_neg hdd] at hres
          cases hlk : fs.lookup (base ++ [s]) with
          | none =>
            rw [hlk] at hres
            exact ih (base ++ [s]) rest r
              (cleanOf_snoc hb (by intro t h; rw [hlk] at h; cases h)) hres
          | some node =>
            cases node with
            | file c =>
              rw [hlk] at hres
              exact ih (base ++ [s]) rest r
                (cleanOf_snoc hb (by intro t h; rw [hlk] at h; cases h)) hres
            | dir =>
              rw [hlk] at hres
              exact ih (base ++ [s]) rest r
                (cleanOf_snoc hb (by intro t h; rw [hlk] at h; cases h)) hres
            | symlink t =>
              rw [hlk] at hres
              dsimp only at hres
              cases hres2 : resolveSegs fs fuel [] t with
              | none => rw [hres2] at hres; cases hres
              | some base' =>
                rw [hres2] at hres
                dsimp only at hres
                exact ih base' rest r (ih [] t base' (cleanOf_nil fs) hres2) hres

/-- Whatever `_validate_path` accepts is a clean path. -/
theorem validate_clean {fs : FS} {wd : AbsPath} {p : PyPath} {full : AbsPath}
    (h : validatePath fs wd p = some full) : cleanOf fs full := by
  unfold validatePath at h
  split at h
  · exact absurd h (by simp)
  · next r hres =>
    split at h
    · cases h
      exact resolve_clean fs _ _ _ _ (cleanOf_nil fs) hres
    · exact absurd h (by simp)

/-- If the (unresolved) workdir path itself runs through a symlink, no
candidate path ever validates: the resolver output is symlink-free, so the
unresolved workdir can never be an initial run of it. -/
theorem validate_none_of_linked_wd {fs : FS} {wd : AbsPath}
    (h : ∃ q t, q ≠ [] ∧ leadsList q wd = true ∧
      fs.lookup q = some (Node.symlink t)) :
    ∀ p, validatePath fs wd p = none := by
  intro p
  obtain ⟨q, t, hq, hlead, hlk⟩ := h
  unfold validatePath
  split
  · rfl
  · next r hres =>
    have hclean := resolve_clean fs _ _ _ _ (cleanOf_nil fs) hres
    have hnot : ¬ (leadsList wd r = true) := fun hwr =>
      hclean q t hq (leadsList_trans hlead hwr) hlk
    simp [hnot]

/-! ### Resolution depends only on where symlinks sit -/

theorem lookup_cons (fs : FS) (k : AbsPath) (n : Node) (q : AbsPath) :
    FS.lookup ((k, n) :: fs) q = if q = k then some n else fs.lookup q := by
  unfold FS.lookup
  rcases eq_or_ne q k with h | h
  · subst h; simp [List.find?_cons]
  · simp [List.find?_cons, Ne.symm h, h]

theorem linkAt_cons_of_plain {fs : FS} {k : AbsPath} {n : Node}
    (hn : ∀ t, n ≠ Node.symlink t) (hk : fs.lookup k = none) :
    ∀ q, FS.linkAt ((k, n) :: fs) q = fs.linkAt q := by
  intro q
  unfold FS.linkAt
  rw [lookup_cons]
  rcases eq_or_ne q k with h | h
  · subst h
    rw [if_pos rfl, hk]
    cases n with
    | symlink t => exact absurd rfl (hn t)
    | file c => rfl
    | dir => rfl
  · rw [if_neg h]

/-- Two filesystems agreeing on symlink placement resolve identically. -/
theorem resolve_congr {fs fs' : FS}
    (h : ∀ k, fs'.linkAt k = fs.linkAt k) :
    ∀ fuel base segs,
      resolveSegs fs' fuel base segs = resolveSegs fs fuel base segs := by
  intro fuel
  induction fuel with
  | zero =>
    intro base segs
    cases segs with
    | nil => rfl
    | cons s rest => rfl
  | succ fuel ih =>
    intro base segs
    cases segs with
    | nil => rfl
    | cons s rest =>
      have ihs : ∀ b, resolveSegs fs' fuel b rest = resolveSegs fs fuel b rest :=
        fun b => ih b rest
      simp only [resolveSegs]
      by_cases hdot : s = "."
      · rw [if_pos hdot, if_pos hdot]; exact ihs base
      · rw [if_neg hdot, if_neg hdot]
        by_cases hdd : s = ".."
        · rw [if_pos hdd, if_pos hdd]; exact ihs base.dropLast
        · rw [if_neg hdd, if_neg hdd]
          have hq := h (base ++ [s])
          unfold FS.linkAt at hq
          cases hlk : fs.lookup (base ++ [s]) with
          | none =>
            rw [hlk] at hq
            dsimp only
            cases hlk' : fs'.lookup (base ++ [s]) with
            | none => dsimp only; exact ihs (base ++ [s])
            | some node' =>
              rw [hlk'] at hq
              cases node' with
              | file c => dsimp only; exact ihs (base ++ [s])
              | dir => dsimp only; exact ihs (base ++ [s])
              | symlink t' => exact absurd hq (by simp)
          | some node =>
            rw [hlk] at hq
            cases node with
            | file c =>
              dsimp only
              cases hlk' : fs'.lookup (base ++ [s]) with
              | none => dsimp only; exact ihs (base ++ [s])
              | some node' =>
                rw [hlk'] at hq
                cases node' with
                | file c' => dsimp only; exact ihs (base ++ [s])
                | dir => dsimp only; exact ihs (base ++ [s])
                | symlink t' => exact absurd hq (by simp)
            | dir =>
              dsimp only
              cases hlk' : fs'.lookup (base ++ [s]) with
              | none => dsimp only; exact ihs (base ++ [s])
              | some node' =>
                rw [hlk'] at hq
                cases node' with
                | file c' => dsimp only; exact ihs (base ++ [s])
                | dir => dsimp only; exact ihs (base ++ [s])
                | symlink t' => exact absurd hq (by simp)
            | symlink t =>
              dsimp only
              cases hlk' : fs'.lookup (base ++ [s]) with
              | none => rw [hlk'] at hq; exact absurd hq (by simp)
              | some node' =>
                rw [hlk'] at hq
                cases node' with
                | file c' => exact absurd hq (by simp)
                | dir => exact absurd hq (by simp)
                | symlink t' =>
                  simp only [Option.some.injEq] at hq
                  rw [hq]
                  dsimp only
                  rw [ih [] t]
                  cases hres : resolveSegs fs fuel [] t with
                  | none => rfl
                  | some base' =>
                    dsimp only
                    exact ih base' rest

/-- `_validate_path` gives the same answer on filesystems that agree on
symlink placement. -/
theorem validate_congr {fs fs' : FS}
    (h : ∀ k, fs'.linkAt k = fs.linkAt k) (wd : AbsPath) (p : PyPath) :
    validatePath fs' wd p = validatePath fs wd p := by
  unfold validatePath
  rw [resolve_congr h]

/-- `mkdir -p` adds only directory nodes, so symlink placement is kept. -/
theorem mkdir_linkAt :
    ∀ (segs : List String) (fs : FS) (base : AbsPath) (fs₀ : FS),
      mkdirParents fs base segs = some fs₀ →
      ∀ q, fs₀.linkAt q = fs.linkAt q := by
  intro segs
  induction segs with
  | nil =>
    intro fs base fs₀ h q
    unfold mkdirParents at h
    cases h; rfl
  | cons s rest ih =>
    intro fs base fs₀ h q
    unfold mkdirParents at h
    cases hlk : fs.lookup (base ++ [s]) with
    | none =>
      rw [hlk] at h
      dsimp only at h
      rw [ih _ _ _ h q]
      exact linkAt_cons_of_plain (fun t hx => Node.noConfusion hx) hlk q
    | some node =>
      rw [hlk] at h
      cases node with
      | dir => dsimp only at h; exact ih _ _ _ h q
      | file c => dsimp only at h; cases h
      | symlink t => dsimp only at h; cases h

/-- `mkdir -p` creates nothing longer than the requested chain. -/
theorem mkdir_lookup_long :
    ∀ (segs : List String) (fs : FS) (base : AbsPath) (fs₀ : FS),
      mkdirParents fs base segs = some fs₀ →
      ∀ k : AbsPath, base.length + segs.length < k.length →
        fs₀.lookup k = fs.lookup k := by
  intro segs
  induction segs with
  | nil =>
    intro fs base fs₀ h k hlen
    unfold mkdirParents at h
    cases h; rfl
  | cons s rest ih =>
    intro fs base fs₀ h k hlen
    unfold mkdirParents at h
    cases hlk : fs.lookup (base ++ [s]) with
    | none =>
      rw [hlk] at h
      dsimp only at h
      have h1 := ih _ _ _ h k (by simp only [List.length_cons, List.length_append, List.length_nil] at hlen ⊢; omega)
      rw [h1, lookup_cons]
      have hne : k ≠ base ++ [s] := by
        intro he
        rw [he] at hlen
        simp only [List.length_cons, List.length_append, List.length_nil] at hlen
        omega
      rw [if_neg hne]
    | some node =>
      rw [hlk] at h
      cases node with
      | dir =>
        dsimp only at h
        exact ih _ _ _ h k (by simp only [List.length_cons, List.length_append, List.length_nil] at hlen ⊢; omega)
      | file c => dsimp only at h; cases h
      | symlink t => dsimp only at h; cases h

/-- Creating the parent chain of `full` does not touch the binding at
`full` itself. -/
theorem mkdir_lookup_dropLast {fs fs₀ : FS} {full : AbsPath}
    (h : mkdirParents fs [] full.dropLast = some fs₀) :
    fs₀.lookup full = fs.lookup full := by
  cases full using List.reverseRecOn with
  | nil =>
    unfold mkdirParents at h
    cases h; rfl
  | append_singleton b' x _ =>
    rw [List.dropLast_concat] at h
    exact mkdir_lookup_long b' fs [] fs₀ h (b' ++ [x]) (by simp)

/-- Writing at an absent key prepends a fresh binding. -/
theorem setFile_absent {fs : FS} {p : AbsPath} (h : fs.lookup p = none)
    (c : String) : fs.setFile p c = (p, Node.file c) :: fs := by
  have hfind : fs.find? (fun e => decide (e.1 = p)) = none := by
    unfold FS.lookup at h
    exact Option.map_eq_none'.1 h
  have hany : fs.any (fun e => decide (e.1 = p)) = false := by
    rw [List.any_eq_false]
    intro e he
    have := List.find?_eq_none.1 hfind e he
    simpa using this
  unfold FS.setFile
  rw [hany]
  simp

/-- Universal-newline translation is the identity on carriage-return-free
text. -/
theorem univNewlines_of_no_cr :
    ∀ l : List Char, '\r' ∉ l → univNewlines l = l := by
  intro l
  induction l with
  | nil => intro _; rfl
  | cons c rest ih =>
    intro h
    have hc : c ≠ '\r' := fun he => h (he ▸ List.mem_cons_self c rest)
    have hr : '\r' ∉ rest := fun hm => h (List.mem_cons_of_mem c hm)
    rw [univNewlines.eq_def]
    split
    · next heq => simp at heq
    · next heq => exact absurd (List.cons.inj heq).1 hc
    · next heq => exact absurd (List.cons.inj heq).1 hc
    · next c' rest' _ _ heq =>
      obtain ⟨h1, h2⟩ := List.cons.inj heq
      subst h1; subst h2
      rw [ih hr]

/-! ### Substring containment survives `str.strip()` -/

theorem listContainsSub_iff {α : Type} [DecidableEq α] (s p : List α) :
    listContainsSub s p = true ↔ ∃ a b, s = a ++ p ++ b := by
  unfold listContainsSub
  rw [List.any_eq_true]
  constructor
  · rintro ⟨i, _, hlead⟩
    obtain ⟨b, hb⟩ := (leadsList_iff p (s.drop i)).1 hlead
    refine ⟨s.take i, b, ?_⟩
    conv_lhs => rw [← List.take_append_drop i s]
    rw [hb, List.append_assoc]
  · rintro ⟨a, b, hab⟩
    refine ⟨a.length, ?_, ?_⟩
    · rw [List.mem_range]
      subst hab
      simp only [List.length_append]
      omega
    · subst hab
      rw [List.append_assoc, List.drop_left]
      exact (leadsList_iff p (p ++ b)).2 ⟨b, rfl⟩

/-- `dropWhile` cannot eat an occurrence whose first element the predicate
rejects. -/
theorem dropWhile_infix_keep (f : Char → Bool) :
    ∀ (a : List Char) (ph : Char) (pt b : List Char), f ph = false →
      ∃ a', List.dropWhile f (a ++ (ph :: pt) ++ b) = a' ++ (ph :: pt) ++ b := by
  intro a
  induction a with
  | nil =>
    intro ph pt b hf
    refine ⟨[], ?_⟩
    simp [List.dropWhile_cons, hf]
  | cons x xs ih =>
    intro ph pt b hf
    by_cases hx : f x = true
    · obtain ⟨a2, ha⟩ := ih ph pt b hf
      refine ⟨a2, ?_⟩
      simpa [List.dropWhile_cons, hx] using ha
    · refine ⟨x :: xs, ?_⟩
      simp [List.dropWhile_cons, hx]

/-- A pattern whose first and last characters are not whitespace is still
contained after `str.strip()`. -/
theorem containsSub_strip {s pat : String} {ph pl : Char} {pt plt : List Char}
    (hpd : pat.data = ph :: pt) (hrd : pat.data.reverse = pl :: plt)
    (hh : pySpaceChar ph = false) (hl : pySpaceChar pl = false)
    (h : containsSub s pat = true) : containsSub (pyStrip s) pat = true := by
  unfold containsSub at h ⊢
  obtain ⟨a, b, hab⟩ := (listContainsSub_iff s.data pat.data).1 h
  rw [hpd] at hab
  obtain ⟨a1, h1⟩ := dropWhile_infix_keep pySpaceChar a ph pt b hh
  rw [← hab] at h1
  have hrev1 : (ph :: pt).reverse = pl :: plt := by rw [← hpd, hrd]
  have h2 : (List.dropWhile pySpaceChar s.data).reverse
      = b.reverse ++ (pl :: plt) ++ a1.reverse := by
    rw [h1, List.reverse_append, List.reverse_append, hrev1,
      ← List.append_assoc]
  obtain ⟨a2, h3⟩ := dropWhile_infix_keep pySpaceChar b.reverse pl plt a1.reverse hl
  rw [← h2] at h3
  refine (listContainsSub_iff (pyStrip s).data pat.data).2 ⟨a1, a2.reverse, ?_⟩
  show ((s.data.dropWhile pySpaceChar).reverse.dropWhile pySpaceChar).reverse
      = a1 ++ pat.data ++ a2.reverse
  have hplrev : (pl :: plt).reverse = pat.data := by
    rw [← hrd, List.reverse_reverse]
  rw [h3, List.reverse_append, List.reverse_reverse, List.reverse_append,
    hplrev, ← List.append_assoc]

/-- The first and last characters of a blocklist pattern are not
whitespace (so stripping cannot break a match). -/
def patOkBool (pat : String) : Bool :=
  match pat.data, pat.data.reverse with
  | h :: _, l :: _ => !(pySpaceChar h) && !(pySpaceChar l)
  | _, _ => false

theorem blocked_patterns_ok : ∀ pat ∈ blocked_patterns, patOkBool pat = true := by
  decide

/-! ### The replacement loop -/

theorem applyReps_nil (content : String) (idx made : Nat) :
    applyReps content [] idx made = Except.ok (content, made) := rfl

theorem applyReps_cons (content : String) (o n : Option String) (ra : Bool)
    (rest : List ReplacementSpec) (idx made : Nat) :
    applyReps content (⟨o, n, ra⟩ :: rest) idx made =
      match o, n with
      | some original, some new =>
        if original = new then Except.error (FileError.identicalText idx)
        else
          if pyCount content original = 0 then
            Except.error (FileError.textNotFound idx)
          else if ra = false ∧ pyCount content original > 1 then
            Except.error (FileError.notUnique idx (pyCount content original))
          else if ra then
            applyReps (pyReplace content original new none) rest (idx + 1)
              (made + pyCount content original)
          else
            applyReps (pyReplace content original new (some 1)) rest (idx + 1)
              (made + 1)
      | _, _ => Except.error (FileError.missingText idx) := rfl

/-- A batch that fails on a prefix fails identically with more specs
appended. -/
theorem applyReps_append_error :
    ∀ (xs ys : List ReplacementSpec) (content : String) (idx made : Nat)
      (e : FileError),
      applyReps content xs idx made = Except.error e →
      applyReps content (xs ++ ys) idx made = Except.error e := by
  intro xs
  induction xs with
  | nil =>
    intro ys content idx made e h
    rw [applyReps_nil] at h
    cases h
  | cons sp rest ih =>
    intro ys content idx made e h
    obtain ⟨o, n, ra⟩ := sp
    rw [applyReps_cons] at h
    rw [List.cons_append, applyReps_cons]
    cases o with
    | none => exact h
    | some o' =>
      cases n with
      | none => exact h
      | some n' =>
        dsimp only at h ⊢
        by_cases he : o' = n'
        · rw [if_pos he] at h ⊢; exact h
        · rw [if_neg he] at h ⊢
          by_cases h0 : pyCount content o' = 0
          · rw [if_pos h0] at h ⊢; exact h
          · rw [if_neg h0] at h ⊢
            by_cases h1 : ra = false ∧ pyCount content o' > 1
            · rw [if_pos h1] at h ⊢; exact h
            · rw [if_neg h1] at h ⊢
              by_cases h2 : ra = true
              · rw [if_pos h2] at h ⊢
                exact ih ys _ _ _ _ h
              · rw [if_neg h2] at h ⊢
                exact ih ys _ _ _ _ h

/-- A batch that fully succeeds on a prefix continues from its result. -/
theorem applyReps_append_ok :
    ∀ (xs ys : List ReplacementSpec) (content : String) (idx made : Nat)
      (c' : String) (m' : Nat),
      applyReps content xs idx made = Except.ok (c', m') →
      applyReps content (xs ++ ys) idx made =
        applyReps c' ys (idx + xs.length) m' := by
  intro xs
  induction xs with
  | nil =>
    intro ys content idx made c' m' h
    rw [applyReps_nil] at h
    simp only [Except.ok.injEq, Prod.mk.injEq] at h
    obtain ⟨h1, h2⟩ := h
    subst h1; subst h2
    simp
  | cons sp rest ih =>
    intro ys content idx made c' m' h
    obtain ⟨o, n, ra⟩ := sp
    rw [applyReps_cons] at h
    rw [List.cons_append, applyReps_cons]
    have hlen : (idx + 1) + rest.length = idx + (rest.length + 1) := by omega
    cases o with
    | none => cases h
    | some o' =>
      cases n with
      | none => cases h
      | some n' =>
        dsimp only at h ⊢
        by_cases he : o' = n'
        · rw [if_pos he] at h; cases h
        · rw [if_neg he] at h ⊢
          by_cases h0 : pyCount content o' = 0
          · rw [if_pos h0] at h; cases h
          · rw [if_neg h0] at h ⊢
            by_cases h1 : ra = false ∧ pyCount content o' > 1
            · rw [if_pos h1] at h; cases h
            · rw [if_neg h1] at h ⊢
              by_cases h2 : ra = true
              · rw [if_pos h2] at h ⊢
                rw [ih ys _ _ _ _ _ h, List.length_cons, hlen]
              · rw [if_neg h2] at h ⊢
                rw [ih ys _ _ _ _ _ h, List.length_cons, hlen]

/-- The replacement loop can only produce its own four error kinds; in
particular it never reports an unsupported file type. -/
theorem applyReps_no_unsupported :
    ∀ (specs : List ReplacementSpec) (content : String) (idx made : Nat)
      (sfx : String),
      applyReps content specs idx made ≠
        Except.error (FileError.unsupportedType sfx) := by
  intro specs
  induction specs with
  | nil => intro content idx made sfx h; cases h
  | cons sp rest ih =>
    intro content idx made sfx h
    obtain ⟨o, n, ra⟩ := sp
    rw [applyReps_cons] at h
    cases o with
    | none => cases h
    | some o' =>
      cases n with
      | none => cases h
      | some n' =>
        dsimp only at h
        by_cases he : o' = n'
        · rw [if_pos he] at h; cases h
        · rw [if_neg he] at h
          by_cases h0 : pyCount content o' = 0
          · rw [if_pos h0] at h; cases h
          · rw [if_neg h0] at h
            by_cases h1 : ra = false ∧ pyCount content o' > 1
            · rw [if_pos h1] at h; cases h
            · rw [if_neg h1] at h
              by_cases h2 : ra = true
              · rw [if_pos h2] at h; exact ih _ _ _ _ h
              · rw [if_neg h2] at h; exact ih _ _ _ _ h

/-- A batch containing a spec with identical texts can never fully
succeed, and when the specs before it all succeed the reported error is
the identical-text error at that spec's index. -/
theorem applyReps_with_identical {specs : List ReplacementSpec} {i : Nat}
    {t : String} {ra : Bool}
    (hget : specs[i]? = some ⟨some t, some t, ra⟩) :
    ∀ content idx made,
      (∀ c' m', applyReps content specs idx made ≠ Except.ok (c', m')) ∧
      (∀ c' m', applyReps content (specs.take i) idx made = Except.ok (c', m') →
        applyReps content specs idx made =
          Except.error (FileError.identicalText (idx + i))) := by
  intro content idx made
  have hi : i < specs.length := by
    by_contra hge
    rw [List.getElem?_eq_none (by omega)] at hget
    cases hget
  have hspec : specs[i] = (⟨some t, some t, ra⟩ : ReplacementSpec) := by
    rw [List.getElem?_eq_getElem hi] at hget
    exact Option.some.inj hget
  have hdecomp : specs = specs.take i ++ (⟨some t, some t, ra⟩ :: specs.drop (i + 1)) := by
    conv_lhs => rw [← List.take_append_drop i specs]
    rw [List.drop_eq_getElem_cons hi, hspec]
  have hlen : (specs.take i).length = i := by
    rw [List.length_take]
    omega
  constructor
  · intro c' m' hok
    cases hpre : applyReps content (specs.take i) idx made with
    | error e =>
      rw [hdecomp, applyReps_append_error _ _ _ _ _ _ hpre] at hok
      cases hok
    | ok res =>
      obtain ⟨c1, m1⟩ := res
      rw [hdecomp, applyReps_append_ok _ _ _ _ _ _ _ hpre, applyReps_cons] at hok
      simp at hok
  · intro c' m' hpre
    rw [hdecomp, applyReps_append_ok _ _ _ _ _ _ _ hpre, applyReps_cons]
    simp [hlen]

/-! ### `str.count` / `str.replace` facts -/

theorem leadsList_drop_decomp {ot rest : List Char}
    (h : leadsList ot rest = true) : rest = ot ++ rest.drop ot.length := by
  obtain ⟨b, hb⟩ := (leadsList_iff ot rest).1 h
  conv_lhs => rw [hb]
  rw [hb, List.drop_left]

theorem countAux_skip_drop (oh : Char) (ot : List Char) :
    ∀ (s : List Char) (k : Nat),
      countAux oh ot s k = countAux oh ot (s.drop k) 0 := by
  intro s
  induction s with
  | nil => intro k; cases k <;> rfl
  | cons c rest ih =>
    intro k
    cases k with
    | zero => rfl
    | succ k' =>
      rw [show countAux oh ot (c :: rest) (k' + 1) = countAux oh ot rest k'
        from rfl, ih k']
      rfl

theorem countAux_cons (oh : Char) (ot : List Char) (c : Char)
    (rest : List Char) :
    countAux oh ot (c :: rest) 0 =
      if c = oh ∧ leadsList ot rest = true then
        countAux oh ot (rest.drop ot.length) 0 + 1
      else countAux oh ot rest 0 := by
  show (if c = oh ∧ leadsList ot rest = true then
      countAux oh ot rest ot.length + 1
    else countAux oh ot rest 0) = _
  rw [countAux_skip_drop oh ot rest ot.length]

theorem replaceAux_stop (oh : Char) (ot new s : List Char) :
    replaceAux oh ot new s 0 (some 0) = s := by
  cases s <;> rfl

theorem replaceAux_skip_drop (oh : Char) (ot new : List Char) :
    ∀ (s : List Char) (k : Nat) (lim : Option Nat),
      replaceAux oh ot new s k lim = replaceAux oh ot new (s.drop k) 0 lim := by
  intro s
  induction s with
  | nil =>
    intro k lim
    cases k with
    | zero => rfl
    | succ k' =>
      cases lim with
      | none => rfl
      | some m => cases m with | zero => rfl | succ m' => rfl
  | cons c rest ih =>
    intro k lim
    cases k with
    | zero => rfl
    | succ k' =>
      have h1 : replaceAux oh ot new (c :: rest) (k' + 1) lim
          = replaceAux oh ot new rest k' lim := by
        cases lim with
        | none => rfl
        | some m => cases m with | zero => rfl | succ m' => rfl
      rw [h1, ih k' lim]
      rfl

theorem replaceAux_cons (oh : Char) (ot new : List Char) (c : Char)
    (rest : List Char) (lim : Option Nat) (h : lim ≠ some 0) :
    replaceAux oh ot new (c :: rest) 0 lim =
      if c = oh ∧ leadsList ot rest = true then
        new ++ replaceAux oh ot new (rest.drop ot.length) 0
          (lim.map (fun k => k - 1))
      else c :: replaceAux oh ot new rest 0 lim := by
  have harm : replaceAux oh ot new (c :: rest) 0 lim =
      if c = oh ∧ leadsList ot rest = true then
        new ++ replaceAux oh ot new rest ot.length (lim.map (fun k => k - 1))
      else c :: replaceAux oh ot new rest 0 lim := by
    cases lim with
    | none => rfl
    | some m =>
      cases m with
      | zero => exact absurd rfl h
      | succ m' => rfl
  rw [harm, replaceAux_skip_drop oh ot new rest ot.length]

/-- When the pattern occurs, `str.replace(old, new, 1)` rewrites exactly
one occurrence in place. -/
theorem replace_one_decomp (oh : Char) (ot new : List Char) :
    ∀ (N : Nat) (s : List Char), s.length ≤ N → countAux oh ot s 0 = 1 →
      ∃ a b, s = a ++ (oh :: ot) ++ b ∧
        replaceAux oh ot new s 0 (some 1) = a ++ new ++ b := by
  intro N
  induction N with
  | zero =>
    intro s hlen hcount
    have : s = [] := List.length_eq_zero.1 (by omega)
    subst this
    cases hcount
  | succ N ih =>
    intro s hlen hcount
    cases s with
    | nil => cases hcount
    | cons c rest =>
      rw [countAux_cons] at hcount
      by_cases hm : c = oh ∧ leadsList ot rest = true
      · rw [if_pos hm] at hcount
        refine ⟨[], rest.drop ot.length, ?_, ?_⟩
        · obtain ⟨hc, hlead⟩ := hm
          subst hc
          simp only [List.nil_append, List.cons_append, List.cons.injEq,
            true_and]
          exact leadsList_drop_decomp hlead
        · rw [replaceAux_cons oh ot new c rest (some 1) (by simp), if_pos hm]
          rw [show (some 1 : Option Nat).map (fun k => k - 1) = some 0 from rfl,
            replaceAux_stop]
          simp
      · rw [if_neg hm] at hcount
        obtain ⟨a, b, hs, hr⟩ :=
          ih rest (by simp at hlen; omega) hcount
        refine ⟨c :: a, b, ?_, ?_⟩
        · rw [hs]; simp
        · rw [replaceAux_cons oh ot new c rest (some 1) (by simp), if_neg hm,
            hr]
          simp

/-- Every `File` method starts with `_validate_path` and returns the
invalid-path error dict, touching nothing, when it fails. -/
theorem ops_reject_of_validate_none {fs : FS} {wd : AbsPath} {p : PyPath}
    (h : validatePath fs wd p = none) :
    (∀ sl el, readFile fs wd p sl el = Except.error (FileError.invalidPath p)) ∧
    (∀ c, createFile fs wd p c = (Except.error (FileError.invalidPath p), fs)) ∧
    (∀ specs, searchReplace fs wd p specs =
      (Except.error (FileError.invalidPath p), fs)) ∧
    deleteFile fs wd p = (Except.error (FileError.invalidPath p), fs) ∧
    (∀ rcv, listFiles fs wd p rcv = Except.error (FileError.invalidPath p)) := by
  refine ⟨?_, ?_, ?_, ?_, ?_⟩ <;>
    · intros
      simp [readFile, createFile, searchReplace, deleteFile, listFiles, h]

/-- Exhaustive inversion of `File.search_replace`: either some check or
spec fails and the filesystem is returned untouched, or the whole batch
succeeds on an existing regular file and exactly one write happens. -/
theorem searchReplace_cases (fs : FS) (wd : AbsPath) (p : PyPath)
    (specs : List ReplacementSpec) :
    (∃ e, searchReplace fs wd p specs = (Except.error e, fs)) ∨
    (∃ full raw newC made,
      validatePath fs wd p = some full ∧
      fs.lookup full = some (Node.file raw) ∧
      applyReps (pyReadText raw) specs 0 0 = Except.ok (newC, made) ∧
      searchReplace fs wd p specs = (Except.ok made, fs.setFile full newC)) := by
  unfold searchReplace
  cases hv : validatePath fs wd p with
  | none => exact Or.inl ⟨_, rfl⟩
  | some full =>
    dsimp only
    cases hlk : fs.lookup full with
    | none => exact Or.inl ⟨_, rfl⟩
    | some node =>
      cases node with
      | file raw =>
        dsimp only
        cases happ : applyReps (pyReadText raw) specs 0 0 with
        | error e => exact Or.inl ⟨e, rfl⟩
        | ok res =>
          obtain ⟨newC, made⟩ := res
          exact Or.inr ⟨full, raw, newC, made, rfl, hlk, happ, rfl⟩
      | dir => exact Or.inl ⟨_, rfl⟩
      | symlink t => exact Or.inl ⟨_, rfl⟩

/-! ## Claims -/

/-- **C1, counterexample.** The claim demands rejection for *every*
relative path containing a `..` segment, but `a/../b.txt` contains `..`,
resolves back inside the workdir, and `read_file` succeeds on it. -/
theorem c1_counterexample :
    (⟨false, ["a", "..", "b.txt"]⟩ : PyPath).segs.contains ".." = true ∧
    readFile fsDotDot wdEx ⟨false, ["a", "..", "b.txt"]⟩ none none =
      Except.ok ⟨"hi", ["w", "b.txt"], 1⟩ :=
  ⟨by decide, by decide⟩

/-- **C1, amended.** For every path argument whose full canonicalization
fails or lands outside the workdir — `..` traversal that escapes, a
symlink escape, or an absolute path outside — every path-based `File`
operation (`read_file`, `create_file`, `search_replace`, `delete_file`,
`list_files`) returns a structured invalid-path failure and performs no
filesystem modification. -/
theorem c1_escape_rejected (fs : FS) (wd : AbsPath) (p : PyPath)
    (h : validatePath fs wd p = none) :
    (∀ sl el, readFile fs wd p sl el = Except.error (FileError.invalidPath p)) ∧
    (∀ c, createFile fs wd p c = (Except.error (FileError.invalidPath p), fs)) ∧
    (∀ specs, searchReplace fs wd p specs =
      (Except.error (FileError.invalidPath p), fs)) ∧
    deleteFile fs wd p = (Except.error (FileError.invalidPath p), fs) ∧
    (∀ rcv, listFiles fs wd p rcv = Except.error (FileError.invalidPath p)) :=
  ops_reject_of_validate_none h

/-- **C1, witness.** A symlink inside the workdir pointing outside it:
reading and creating through it are rejected with the invalid-path error
and the filesystem is returned unchanged. -/
theorem c1_escape_rejected_witness :
    readFile fsEscape wdEx ⟨false, ["link", "s.txt"]⟩ none none =
      Except.error (FileError.invalidPath ⟨false, ["link", "s.txt"]⟩) ∧
    createFile fsEscape wdEx ⟨false, ["link", "s.txt"]⟩ "x" =
      (Except.error (FileError.invalidPath ⟨false, ["link", "s.txt"]⟩),
        fsEscape) := by
  have h := c1_escape_rejected fsEscape wdEx ⟨false, ["link", "s.txt"]⟩
    (by decide)
  exact ⟨h.1 none none, h.2.1 "x"⟩

/-- **C9.** When the workdir's own (unresolved) path runs through a
symlink, `_validate_path` resolves candidates to symlink-free real paths
but compares them against the unresolved workdir, so every path — even a
plain contained filename — is rejected as invalid-path and no `File`
operation can succeed. -/
theorem c9_linked_workdir_rejects_all (fs : FS) (wd : AbsPath)
    (h : ∃ q t, q ≠ [] ∧ leadsList q wd = true ∧
      fs.lookup q = some (Node.symlink t)) :
    ∀ p : PyPath,
      (∀ sl el, readFile fs wd p sl el =
        Except.error (FileError.invalidPath p)) ∧
      (∀ c, createFile fs wd p c =
        (Except.error (FileError.invalidPath p), fs)) ∧
      (∀ specs, searchReplace fs wd p specs =
        (Except.error (FileError.invalidPath p), fs)) ∧
      deleteFile fs wd p = (Except.error (FileError.invalidPath p), fs) ∧
      (∀ rcv, listFiles fs wd p rcv =
        Except.error (FileError.invalidPath p)) :=
  fun p => ops_reject_of_validate_none (validate_none_of_linked_wd h p)

/-- **C9, witness.** Workdir `/tmp/link/wd` where `/tmp/link` is a symlink
to `/var/real`: even the plain contained filename `a.txt`, whose resolved
target exists, is rejected as an invalid path by read and delete. -/
theorem c9_linked_workdir_witness :
    readFile fsLinkedWd ["tmp", "link", "wd"] ⟨false, ["a.txt"]⟩ none none =
      Except.error (FileError.invalidPath ⟨false, ["a.txt"]⟩) ∧
    deleteFile fsLinkedWd ["tmp", "link", "wd"] ⟨false, ["a.txt"]⟩ =
      (Except.error (FileError.invalidPath ⟨false, ["a.txt"]⟩), fsLinkedWd) := by
  have h := c9_linked_workdir_rejects_all fsLinkedWd ["tmp", "link", "wd"]
    ⟨["tmp", "link"], ["var", "real"], by decide, by decide, by decide⟩
    ⟨false, ["a.txt"]⟩
  exact ⟨h.1 none none, h.2.2.2.1⟩

/-- **C4.** A command string that case-insensitively contains a blocklist
pattern is refused before any subprocess interaction: `execute` returns
the completed failure dict — success `False`, returncode `-1`, empty
stdout/stderr, and an error message naming the blocked command — instead
of reaching the spawn step. -/
theorem c4_blocked_never_spawns (wd : AbsPath) (timeout : Nat)
    (cmd pat : String) (hmem : pat ∈ blocked_patterns)
    (hsub : containsSub (pyLower cmd) pat = true) :
    execute wd timeout cmd = ExecStep.done
      { success := false, returncode := -1, stdout := "", stderr := "",
        workdir := wd,
        error := some ("Blocked dangerous command: " ++ cmd) } := by
  have hok := blocked_patterns_ok pat hmem
  have hstrip : containsSub (pyStrip (pyLower cmd)) pat = true := by
    unfold patOkBool at hok
    cases hpd : pat.data with
    | nil => rw [hpd] at hok; cases hok
    | cons ph pt =>
      cases hrd : pat.data.reverse with
      | nil => rw [hrd, hpd] at hok; cases hok
      | cons pl plt =>
        rw [hrd, hpd] at hok
        dsimp only at hok
        simp only [Bool.and_eq_true, Bool.not_eq_true'] at hok
        exact containsSub_strip hpd hrd hok.1 hok.2 hsub
  have hbl : isBlocked cmd = true := by
    unfold isBlocked
    rw [List.any_eq_true]
    exact ⟨pat, hmem, hstrip⟩
  simp [execute, hbl]

/-- **C4, witness.** `sudo ShutDown -h now` contains `shutdown`
case-insensitively and is refused without a spawn. -/
theorem c4_blocked_never_spawns_witness :
    execute ["w"] 60 "sudo ShutDown -h now" = ExecStep.done
      { success := false, returncode := -1, stdout := "", stderr := "",
        workdir := ["w"],
        error := some ("Blocked dangerous command: " ++ "sudo ShutDown -h now") } :=
  c4_blocked_never_spawns ["w"] 60 "sudo ShutDown -h now" "shutdown"
    (by decide) (by decide)

/-- **C2.** `search_replace` is all-or-nothing: any failing outcome leaves
the filesystem byte-identical to before the call, and a success implies
the batch ran to completion in memory on an already-existing regular
file, after which the file is rewritten exactly once with the final
content (no file is ever created). -/
theorem c2_all_or_nothing (fs : FS) (wd : AbsPath) (p : PyPath)
    (specs : List ReplacementSpec) :
    (∀ e, (searchReplace fs wd p specs).1 = Except.error e →
      (searchReplace fs wd p specs).2 = fs) ∧
    (∀ made, (searchReplace fs wd p specs).1 = Except.ok made →
      ∃ full raw newC,
        validatePath fs wd p = some full ∧
        fs.lookup full = some (Node.file raw) ∧
        applyReps (pyReadText raw) specs 0 0 = Except.ok (newC, made) ∧
        (searchReplace fs wd p specs).2 = fs.setFile full newC) := by
  rcases searchReplace_cases fs wd p specs with ⟨e, he⟩ |
    ⟨full, raw, newC, made, hv, hlk, happ, hok⟩
  · constructor
    · intro e' _; rw [he]
    · intro made h; rw [he] at h; simp at h
  · constructor
    · intro e' h; rw [hok] at h; simp at h
    · intro made' h
      rw [hok] at h
      simp only [Except.ok.injEq] at h
      subst h
      exact ⟨full, raw, newC, hv, hlk, happ, by rw [hok]⟩

/-- **C2, witness.** A batch whose only spec's text is absent fails and
leaves the concrete filesystem unchanged. -/
theorem c2_all_or_nothing_witness :
    (searchReplace fsAXbXc wdEx ⟨false, ["f.txt"]⟩
      [⟨some "zz", some "yy", false⟩]).2 = fsAXbXc :=
  (c2_all_or_nothing fsAXbXc wdEx ⟨false, ["f.txt"]⟩
    [⟨some "zz", some "yy", false⟩]).1 (FileError.textNotFound 0) (by decide)

/-- **C3.** On the file `"aXbXc"`, the single spec `X → Y` without
`replace_all` fails not-unique with count 2 and leaves the file
untouched, while with `replace_all` it succeeds producing `"aYbYc"` and
reports 2 replacements; in general a spec matching more than once is
rejected (with the occurrence count) unless `replace_all` is set,
`replace_all` adds the full occurrence count, and otherwise exactly the
leftmost occurrence is rewritten in place and 1 is added. -/
theorem c3_uniqueness_and_replace_all :
    searchReplace fsAXbXc wdEx ⟨false, ["f.txt"]⟩
        [⟨some "X", some "Y", false⟩] =
      (Except.error (FileError.notUnique 0 2), fsAXbXc) ∧
    searchReplace fsAXbXc wdEx ⟨false, ["f.txt"]⟩
        [⟨some "X", some "Y", true⟩] =
      (Except.ok 2, [(["w"], Node.dir), (["w", "f.txt"], Node.file "aYbYc")]) ∧
    (∀ s o n : String, o ≠ n → 1 < pyCount s o →
      applyReps s [⟨some o, some n, false⟩] 0 0 =
        Except.error (FileError.notUnique 0 (pyCount s o))) ∧
    (∀ s o n : String, o ≠ n → 0 < pyCount s o →
      applyReps s [⟨some o, some n, true⟩] 0 0 =
        Except.ok (pyReplace s o n none, pyCount s o)) ∧
    (∀ s o n : String, o ≠ n → pyCount s o = 1 →
      ∃ a b : List Char, s.data = a ++ o.data ++ b ∧
        applyReps s [⟨some o, some n, false⟩] 0 0 =
          Except.ok ((a ++ n.data ++ b).asString, 1)) := by
  refine ⟨by decide, by decide, ?_, ?_, ?_⟩
  · intro s o n hne hgt
    rw [applyReps_cons]
    dsimp only
    rw [if_neg hne, if_neg (by omega), if_pos ⟨rfl, hgt⟩]
  · intro s o n hne hpos
    rw [applyReps_cons]
    dsimp only
    rw [if_neg hne, if_neg (by omega), if_neg (by simp), if_pos rfl,
      applyReps_nil]
    simp
  · intro s o n hne h1
    cases ho : o.data with
    | nil =>
      have hs : s.data = [] := by
        unfold pyCount at h1
        rw [ho] at h1
        dsimp only at h1
        exact List.length_eq_zero.1 (by omega)
      refine ⟨[], [], by simp [hs], ?_⟩
      rw [applyReps_cons]
      dsimp only
      rw [if_neg hne, if_neg (by omega), if_neg (by simp [h1]),
        if_neg (by simp), applyReps_nil]
      unfold pyReplace
      rw [ho, hs]
      simp only [List.nil_append, List.append_nil]
      rfl
    | cons oh ot =>
      have hc : countAux oh ot s.data 0 = 1 := by
        unfold pyCount at h1
        rw [ho] at h1
        exact h1
      obtain ⟨a, b, hs, hr⟩ :=
        replace_one_decomp oh ot n.data s.data.length s.data (le_refl _) hc
      refine ⟨a, b, hs, ?_⟩
      rw [applyReps_cons]
      dsimp only
      rw [if_neg hne, if_neg (by omega), if_neg (by simp [h1]),
        if_neg (by simp), applyReps_nil]
      unfold pyReplace
      rw [ho]
      dsimp only
      rw [hr]

/-- **C3, witness.** `replace_all` on `"zz"` with pattern `"z"` replaces
both occurrences and reports the full count 2. -/
theorem c3_uniqueness_witness :
    applyReps "zz" [⟨some "z", some "w", true⟩] 0 0 =
      Except.ok ("ww", 2) := by
  have h := c3_uniqueness_and_replace_all.2.2.2.1 "zz" "z" "w"
    (by decide) (by decide)
  rw [h]
  decide

/-- **C8, counterexample.** A batch whose second spec has identical texts
but whose first spec already fails is rejected with the *first* failing
index (0, not-found), not with an identical-text error naming index 1 —
so the error does not always name the identical-text spec's index. -/
theorem c8_counterexample :
    ([⟨some "zz", some "yy", false⟩, ⟨some "a", some "a", false⟩] :
        List ReplacementSpec)[1]? = some ⟨some "a", some "a", false⟩ ∧
    searchReplace fsAXbXc wdEx ⟨false, ["f.txt"]⟩
        [⟨some "zz", some "yy", false⟩, ⟨some "a", some "a", false⟩] =
      (Except.error (FileError.textNotFound 0), fsAXbXc) ∧
    FileError.textNotFound 0 ≠ FileError.identicalText 1 :=
  ⟨by decide, by decide, by decide⟩

/-- **C8, amended.** A batch containing a spec with
`original_text = new_text` is always rejected as a whole — it can never
succeed and no write occurs — and whenever every spec before it succeeds,
the structured error is the identical-text error naming that spec's
index. -/
theorem c8_identical_rejected (fs : FS) (wd : AbsPath) (p : PyPath)
    (specs : List ReplacementSpec) (i : Nat) (t : String) (ra : Bool)
    (hget : specs[i]? = some ⟨some t, some t, ra⟩) :
    (∀ m, (searchReplace fs wd p specs).1 ≠ Except.ok m) ∧
    (searchReplace fs wd p specs).2 = fs ∧
    (∀ full raw c' m', validatePath fs wd p = some full →
      fs.lookup full = some (Node.file raw) →
      applyReps (pyReadText raw) (specs.take i) 0 0 = Except.ok (c', m') →
      (searchReplace fs wd p specs).1 =
        Except.error (FileError.identicalText i)) := by
  refine ⟨?_, ?_, ?_⟩
  · intro m hm
    rcases searchReplace_cases fs wd p specs with ⟨e, he⟩ |
      ⟨full, raw, newC, made, hv, hlk, happ, hok⟩
    · rw [he] at hm; simp at hm
    · exact (applyReps_with_identical hget (pyReadText raw) 0 0).1 newC made happ
  · rcases searchReplace_cases fs wd p specs with ⟨e, he⟩ |
      ⟨full, raw, newC, made, hv, hlk, happ, hok⟩
    · rw [he]
    · exact absurd happ
        ((applyReps_with_identical hget (pyReadText raw) 0 0).1 newC made)
  · intro full raw c' m' hv hlk hpre
    have hfull := (applyReps_with_identical hget (pyReadText raw) 0 0).2 c' m' hpre
    have hrw : searchReplace fs wd p specs =
        (Except.error (FileError.identicalText (0 + i)), fs) := by
      unfold searchReplace
      rw [hv]
      dsimp only
      rw [hlk]
      dsimp only
      rw [hfull]
    rw [hrw]
    simp

/-- **C8, witness.** First spec succeeds, second has identical texts: the
batch fails with the identical-text error at index 1. -/
theorem c8_identical_rejected_witness :
    (searchReplace fsAXbXc wdEx ⟨false, ["f.txt"]⟩
      [⟨some "a", some "b", false⟩, ⟨some "X", some "X", true⟩]).1 =
      Except.error (FileError.identicalText 1) := by
  have h := (c8_identical_rejected fsAXbXc wdEx ⟨false, ["f.txt"]⟩
    [⟨some "a", some "b", false⟩, ⟨some "X", some "X", true⟩] 1 "X" true
    (by decide)).2.2
  exact h ["w", "f.txt"] "aXbXc" "bXbXc" 1 (by decide) (by decide) (by decide)

/-- **C5, counterexample.** `create_file` writes the content verbatim, but
`read_file` decodes with universal-newline translation, so a content
string containing a bare carriage return does not round-trip: writing
`"a\rb"` then reading yields `"a\nb"`. -/
theorem c5_counterexample :
    createFile fsEmptyWd wdEx ⟨false, ["f.txt"]⟩ "a\rb" =
      (Except.ok ["w", "f.txt"],
        [(["w", "f.txt"], Node.file "a\rb"), (["w"], Node.dir)]) ∧
    readFile [(["w", "f.txt"], Node.file "a\rb"), (["w"], Node.dir)] wdEx
        ⟨false, ["f.txt"]⟩ none none =
      Except.ok ⟨"a\nb", ["w", "f.txt"], 2⟩ ∧
    ("a\nb" : String) ≠ "a\rb" :=
  ⟨by decide, by decide, by decide⟩

/-- **C5, amended.** For every valid contained path with an allow-listed
extension and every content string free of carriage returns, a successful
`create_file` followed by `read_file` returns content identical to what
was written; a second `create_file` on the same path then fails with
already-exists regardless of content and leaves the filesystem unchanged. -/
theorem c5_roundtrip_no_cr (fs : FS) (wd : AbsPath) (p : PyPath)
    (c : String) (full : AbsPath) (fs₁ : FS)
    (hcreate : createFile fs wd p c = (Except.ok full, fs₁))
    (hcr : '\r' ∉ c.data) :
    (∃ n, readFile fs₁ wd p none none = Except.ok ⟨c, full, n⟩) ∧
    (∀ c', createFile fs₁ wd p c' =
      (Except.error (FileError.alreadyExists p), fs₁)) := by
  unfold createFile at hcreate
  cases hv : validatePath fs wd p with
  | none => rw [hv] at hcreate; simp at hcreate
  | some full0 =>
    rw [hv] at hcreate
    dsimp only at hcreate
    by_cases hex : (fs.lookup full0).isSome
    · rw [if_pos hex] at hcreate; simp at hcreate
    · rw [if_neg hex] at hcreate
      have hnone : fs.lookup full0 = none := Option.not_isSome_iff_eq_none.1 hex
      by_cases htxt : isTextFile full0 = false
      · rw [if_pos htxt] at hcreate; simp at hcreate
      · rw [if_neg htxt] at hcreate
        have htxt' : isTextFile full0 = true := by
          cases hb : isTextFile full0 with
          | false => exact absurd hb htxt
          | true => rfl
        cases hmk : mkdirParents fs [] full0.dropLast with
        | none => rw [hmk] at hcreate; simp at hcreate
        | some fs₀ =>
          rw [hmk] at hcreate
          dsimp only at hcreate
          have hfull : full0 = full := by
            have h := congrArg Prod.fst hcreate
            simpa using h
          subst hfull
          have hfs₁ : fs₁ = fs₀.setFile full0 c := by
            have h := congrArg Prod.snd hcreate
            simpa using h.symm
          have hlk₀ : fs₀.lookup full0 = none := by
            rw [mkdir_lookup_dropLast hmk]
            exact hnone
          have hset : fs₀.setFile full0 c = (full0, Node.file c) :: fs₀ :=
            setFile_absent hlk₀ c
          have hlinks : ∀ q, fs₁.linkAt q = fs.linkAt q := by
            intro q
            rw [hfs₁, hset,
              linkAt_cons_of_plain (fun t hx => Node.noConfusion hx) hlk₀ q]
            exact mkdir_linkAt _ _ _ _ hmk q
          have hv₁ : validatePath fs₁ wd p = some full0 := by
            rw [validate_congr hlinks wd p, hv]
          have hlk₁ : fs₁.lookup full0 = some (Node.file c) := by
            rw [hfs₁, hset, lookup_cons, if_pos rfl]
          have hpy : pyReadText c = c := by
            unfold pyReadText
            rw [univNewlines_of_no_cr c.data hcr]
            rfl
          have hcond : ¬ (isTextFile full0 = false) := by
            rw [htxt']; simp
          constructor
          · refine ⟨(splitLinesKeep (pyReadText c).data).length, ?_⟩
            unfold readFile
            rw [hv₁]
            dsimp only
            rw [hlk₁]
            dsimp only
            rw [if_neg hcond, hpy]
          · intro c'
            unfold createFile
            rw [validate_congr hlinks wd p, hv]
            dsimp only
            rw [hlk₁]
            rfl

/-- **C5, witness.** Creating `f.txt` with `"hello\n"` and re-creating it
fails already-exists with the filesystem unchanged. -/
theorem c5_roundtrip_witness :
    createFile [(["w", "f.txt"], Node.file "hello\n"), (["w"], Node.dir)]
        wdEx ⟨false, ["f.txt"]⟩ "zz" =
      (Except.error (FileError.alreadyExists ⟨false, ["f.txt"]⟩),
        [(["w", "f.txt"], Node.file "hello\n"), (["w"], Node.dir)]) := by
  have h := c5_roundtrip_no_cr fsEmptyWd wdEx ⟨false, ["f.txt"]⟩ "hello\n"
    ["w", "f.txt"] [(["w", "f.txt"], Node.file "hello\n"), (["w"], Node.dir)]
    (by decide) (by decide)
  exact h.2 "zz"

/-- **C6.** With both bounds given, `read_file` validates `1 ≤ start` and
`end ≤ total` (failing out-of-bounds with the offending range and total
otherwise) and, for a valid 1-based inclusive range, returns exactly the
requested lines with their terminators together with the whole file's
line count; concretely, on a 3-line file lines 2–2 give exactly line 2
and the range 1–4 is out of bounds. -/
theorem c6_line_range :
    (∀ (fs : FS) (wd : AbsPath) (p : PyPath) (raw : String) (full : AbsPath),
      validatePath fs wd p = some full →
      fs.lookup full = some (Node.file raw) →
      isTextFile full = true →
      (∀ st en : Int,
        (st < 1 ∨ en > ((splitLinesKeep (pyReadText raw).data).length : Int)) →
        readFile fs wd p (some st) (some en) =
          Except.error (FileError.outOfBounds st en
            (splitLinesKeep (pyReadText raw).data).length)) ∧
      (∀ st en : Int, 1 ≤ st → st ≤ en →
        en ≤ ((splitLinesKeep (pyReadText raw).data).length : Int) →
        readFile fs wd p (some st) (some en) =
          Except.ok ⟨(((splitLinesKeep (pyReadText raw).data).take
              en.toNat).drop (st.toNat - 1)).flatten.asString, full,
            (splitLinesKeep (pyReadText raw).data).length⟩)) ∧
    readFile fsThreeLines wdEx ⟨false, ["n.txt"]⟩ (some 2) (some 2) =
      Except.ok ⟨"B\n", ["w", "n.txt"], 3⟩ ∧
    readFile fsThreeLines wdEx ⟨false, ["n.txt"]⟩ (some 1) (some 4) =
      Except.error (FileError.outOfBounds 1 4 3) := by
  refine ⟨?_, by decide, by decide⟩
  intro fs wd p raw full hv hlk htxt
  have hcond : ¬ (isTextFile full = false) := by rw [htxt]; simp
  constructor
  · intro st en hoob
    unfold readFile
    rw [hv]
    dsimp only
    rw [hlk]
    dsimp only
    rw [if_neg hcond]
    rw [if_pos hoob]
  · intro st en h1 h2 h3
    unfold readFile
    rw [hv]
    dsimp only
    rw [hlk]
    dsimp only
    rw [if_neg hcond]
    rw [if_neg (by omega)]
    have hlen1 : 1 ≤ (splitLinesKeep (pyReadText raw).data).length := by
      omega
    have hhi : pySliceClamp (splitLinesKeep (pyReadText raw).data).length en
        = en.toNat := by
      unfold pySliceClamp
      rw [if_neg (by omega)]
      exact Nat.min_eq_left (by omega)
    have hlo : pySliceClamp (splitLinesKeep (pyReadText raw).data).length
        (st - 1) = st.toNat - 1 := by
      unfold pySliceClamp
      rw [if_neg (by omega)]
      rw [show (st - 1).toNat = st.toNat - 1 by omega]
      exact Nat.min_eq_left (by omega)
    unfold pySlice
    rw [hhi, hlo]

/-- **C6, witness.** Lines 2–3 of the 3-line file are returned exactly,
terminators preserved, with the whole file's line count. -/
theorem c6_line_range_witness :
    readFile fsThreeLines wdEx ⟨false, ["n.txt"]⟩ (some 2) (some 3) =
      Except.ok ⟨"B\nC\n", ["w", "n.txt"], 3⟩ := by
  have h := (c6_line_range.1 fsThreeLines wdEx ⟨false, ["n.txt"]⟩ "A\nB\nC\n"
    ["w", "n.txt"] (by decide) (by decide) (by decide)).2 2 3
    (by decide) (by decide) (by decide)
  rw [h]
  decide

/-- **C10.** The line-range slice applies only when both `start_line` and
`end_line` are given: with exactly one of them present, `read_file`
behaves identically to the unbounded call — the given bound is never
checked — and on an existing file it succeeds with the full content and
total line count even when that bound is far out of range. -/
theorem c10_single_bound_ignored :
    (∀ (fs : FS) (wd : AbsPath) (p : PyPath) (b : Int),
      readFile fs wd p (some b) none = readFile fs wd p none none ∧
      readFile fs wd p none (some b) = readFile fs wd p none none) ∧
    readFile fsThreeLines wdEx ⟨false, ["n.txt"]⟩ (some 99) none =
      Except.ok ⟨"A\nB\nC\n", ["w", "n.txt"], 3⟩ ∧
    readFile fsThreeLines wdEx ⟨false, ["n.txt"]⟩ none (some 0) =
      Except.ok ⟨"A\nB\nC\n", ["w", "n.txt"], 3⟩ := by
  refine ⟨?_, by decide, by decide⟩
  intro fs wd p b
  have key : ∀ sl el : Option Int, (sl = some b ∧ el = none) ∨
      (sl = none ∧ el = some b) →
      readFile fs wd p sl el = readFile fs wd p none none := by
    intro sl el hse
    unfold readFile
    cases validatePath fs wd p with
    | none => rfl
    | some full =>
      dsimp only
      cases fs.lookup full with
      | none => rfl
      | some node =>
        dsimp only
        cases hb : isTextFile full with
        | false => rfl
        | true =>
          cases node with
          | dir => rfl
          | symlink t => rfl
          | file raw =>
            rcases hse with ⟨h1, h2⟩ | ⟨h1, h2⟩ <;> subst h1 <;> subst h2 <;> rfl
  exact ⟨key (some b) none (Or.inl ⟨rfl, rfl⟩), key none (some b) (Or.inr ⟨rfl, rfl⟩)⟩

/-- **C7, counterexample.** The extension allow-list is *not* enforced by
every tracked-file operation: on a `.bin` file (not allow-listed) both
`search_replace` and `delete_file` succeed and modify the filesystem. -/
theorem c7_counterexample :
    isTextFile ["w", "f.bin"] = false ∧
    searchReplace fsBin wdEx ⟨false, ["f.bin"]⟩
        [⟨some "abc", some "xyz", false⟩] =
      (Except.ok 1, [(["w"], Node.dir), (["w", "f.bin"], Node.file "xyz")]) ∧
    deleteFile fsBin wdEx ⟨false, ["f.bin"]⟩ =
      (Except.ok (), [(["w"], Node.dir)]) :=
  ⟨by decide, by decide, by decide⟩

/-- **C7, amended.** Only `read_file` and `create_file` gate on the fixed
case-insensitive extension allow-list (rejecting with an unsupported-type
error and touching nothing); `search_replace` and `delete_file` perform
no extension check at all and can never return an unsupported-type
error. The check inspects only the extension, never the content. -/
theorem c7_extension_gate :
    (∀ (fs : FS) (wd : AbsPath) (p : PyPath) (full : AbsPath) (node : Node)
      (sl el : Option Int),
      validatePath fs wd p = some full →
      fs.lookup full = some node →
      isTextFile full = false →
      readFile fs wd p sl el =
        Except.error (FileError.unsupportedType (pySuffix full))) ∧
    (∀ (fs : FS) (wd : AbsPath) (p : PyPath) (full : AbsPath) (c : String),
      validatePath fs wd p = some full →
      fs.lookup full = none →
      isTextFile full = false →
      createFile fs wd p c =
        (Except.error (FileError.unsupportedType (pySuffix full)), fs)) ∧
    (∀ (fs : FS) (wd : AbsPath) (p : PyPath) (specs : List ReplacementSpec)
      (sfx : String),
      (searchReplace fs wd p specs).1 ≠
        Except.error (FileError.unsupportedType sfx)) ∧
    (∀ (fs : FS) (wd : AbsPath) (p : PyPath) (sfx : String),
      (deleteFile fs wd p).1 ≠
        Except.error (FileError.unsupportedType sfx)) := by
  refine ⟨?_, ?_, ?_, ?_⟩
  · intro fs wd p full node sl el hv hlk htxt
    unfold readFile
    rw [hv]
    dsimp only
    rw [hlk]
    dsimp only
    rw [if_pos htxt]
  · intro fs wd p full c hv hlk htxt
    unfold createFile
    rw [hv]
    dsimp only
    rw [hlk]
    rw [if_neg (by simp)]
    rw [if_pos htxt]
  · intro fs wd p specs sfx h
    unfold searchReplace at h
    cases hv : validatePath fs wd p with
    | none => rw [hv] at h; simp at h
    | some full =>
      rw [hv] at h
      dsimp only at h
      cases hlk : fs.lookup full with
      | none => rw [hlk] at h; simp at h
      | some node =>
        rw [hlk] at h
        cases node with
        | file raw =>
          dsimp only at h
          cases happ : applyReps (pyReadText raw) specs 0 0 with
          | error e =>
            rw [happ] at h
            dsimp only at h
            simp only [Except.error.injEq] at h
            exact applyReps_no_unsupported specs (pyReadText raw) 0 0 sfx
              (by rw [happ, h])
          | ok res =>
            obtain ⟨c1, m1⟩ := res
            rw [happ] at h
            dsimp only at h
            simp at h
        | dir => dsimp only at h; simp at h
        | symlink t => dsimp only at h; simp at h
  · intro fs wd p sfx h
    unfold deleteFile at h
    cases hv : validatePath fs wd p with
    | none => rw [hv] at h; simp at h
    | some full =>
      rw [hv] at h
      dsimp only at h
      cases hlk : fs.lookup full with
      | none => rw [hlk] at h; simp at h
      | some node =>
        rw [hlk] at h
        cases node with
        | file c => dsimp only at h; simp at h
        | dir => dsimp only at h; simp at h
        | symlink t => dsimp only at h; simp at h

/-- **C7, witness.** `read_file` on the existing `.bin` file fails with
the unsupported-type error carrying its suffix. -/
theorem c7_extension_gate_witness :
    readFile fsBin wdEx ⟨false, ["f.bin"]⟩ none none =
      Except.error (FileError.unsupportedType ".bin") := by
  have h := c7_extension_gate.1 fsBin wdEx ⟨false, ["f.bin"]⟩ ["w", "f.bin"]
    (Node.file "abc") none none (by decide) (by decide) (by decide)
  rw [h]
  decide

end Toollm
